import Mathlib

/-!
Verification of the Quatt Home Assistant integration
(`custom_components/quatt`): a shallow embedding in Lean 4 of the
cloud-pairing workflow, the local host prober, the cloud token manager
and the config-entry migration driver, together with theorems settling
the specification claims about them.

Conventions of the embedding:
* Python JSON values are modelled by the inductive `Json`; Python
  truthiness by `Json.truthy`; `dict.get(k)` (default `None`) by
  `Json.get`, which returns `Json.null` for an absent key.
* HTTP requests are modelled by their observable outcomes: a status code
  together with a parsed JSON body, or an exception.  Effectful loops
  take the sequence of outcomes as an explicit environment argument.
* `asyncio` clock time is a natural number of seconds; each polling
  iteration consumes the time its requests took (`dt`) plus the fixed
  sleep interval.
-/

/-! ## A model of Python JSON values and truthiness -/

inductive Json where
  | null : Json
  | bool (b : Bool) : Json
  | num (n : Int) : Json
  | str (s : String) : Json
  | arr (xs : List Json) : Json
  | obj (kvs : List (String × Json)) : Json

/-- Python truthiness of a JSON value (`bool(x)`). -/
def Json.truthy : Json → Bool
  | .null => false
  | .bool b => b
  | .num n => n != 0
  | .str s => s != ""
  | .arr xs => !xs.isEmpty
  | .obj kvs => !kvs.isEmpty

/-- Lookup of a key in a JSON object: `some v` when present, `none`
when absent or when the value is not an object (Python `k in d`). -/
def Json.find? : Json → String → Option Json
  | .obj kvs, k => (kvs.find? (fun p => p.1 == k)).map Prod.snd
  | _, _ => none

/-- Python `d.get(k)`: the value under `k`, or `None` when absent.
Absence is collapsed to `Json.null`, which is falsy like Python `None`. -/
def Json.get (j : Json) (k : String) : Json :=
  (j.find? k).getD .null

/-- Whether a JSON value is an object (`isinstance(x, dict)`). -/
def Json.isObj : Json → Bool
  | .obj _ => true
  | _ => false

/-- Whether a JSON value is exactly the string `s` (Python `x == s`
where `s` is a string literal; non-strings compare unequal). -/
def Json.isStr (j : Json) (s : String) : Bool :=
  match j with
  | .str t => t == s
  | _ => false

/-- Python `a or b`: `a` when truthy, otherwise `b`. -/
def pyOr (a b : Json) : Json :=
  if a.truthy then a else b

/-- Extraction of the installation list from a response body, shared by
`_poll_confirmed` and `async_discover`:
`js.get("result") or js.get("items") or js.get("installations") or []`
when `js` is a dict, `js` itself when it is a list, `[]` otherwise. -/
def itemsOf (js : Json) : Json :=
  match js with
  | .obj _ => pyOr (js.get "result") (pyOr (js.get "items") (pyOr (js.get "installations") (.arr [])))
  | .arr xs => .arr xs
  | _ => .arr []

/-! ## Constants of the config flow (`config_flow.py`) -/

def PAIR_TIMEOUT_S : Nat := 120

def POLL_INTERVAL_S : Nat := 2

/-- Total timeout, in seconds, of the single probe GET (`_probe_host`). -/
def PROBE_TIMEOUT_S : Nat := 4

/-! ## The host probe (`_probe_host` in `__init__.py` and
`config_flow.py`; the two copies are identical) -/

/-- Observable outcome of the probe's single HTTP GET: a response with a
status code, or a raised `aiohttp.ClientError` / `asyncio.TimeoutError`. -/
inductive ProbeOutcome where
  | resp (status : Nat) : ProbeOutcome
  | netErr : ProbeOutcome

/-- URL requested by `_probe_host` for a host. -/
def probe_url (host : String) : String :=
  "http://" ++ host ++ ":8080/beta/feed/data.json"

/-- Result of `_probe_host`: `resp.status == 200` on a response, and
`False` (no exception propagates) on a client error or timeout. -/
def probe_host (outcome : ProbeOutcome) : Bool :=
  match outcome with
  | .resp status => status == 200
  | .netErr => false

/-! ## Candidate hostname construction (`_pick_reachable_host`)

Python strings subjected to `strip` / `lower` / slicing are modelled as
lists of characters, which the kernel can evaluate. -/

/-- A Python string, as a sequence of characters. -/
abbrev PyStr := List Char

/-- Python whitespace stripped by `str.strip()` (ASCII subset). -/
def pyIsSpace (c : Char) : Bool :=
  c ∈ [' ', '\t', '\n', '\r']

/-- Python `s.strip()`: whitespace removed from both ends. -/
def pyStrip (s : PyStr) : PyStr :=
  ((s.dropWhile pyIsSpace).reverse.dropWhile pyIsSpace).reverse

/-- Python `s.lower()` (ASCII subset). -/
def pyLower (s : PyStr) : PyStr := s.map Char.toLower

/-- Serial case-normalisation shared by both probers: when the string
has at least three characters, its first three are uppercased
(`s[:3].upper() + s[3:]`). -/
def upper3 (s : PyStr) : PyStr :=
  if 3 ≤ s.length then (s.take 3).map Char.toUpper ++ s.drop 3 else s

/-- The `.local` suffix. -/
def dotLocal : PyStr := ".local".data

/-- Candidate list of `ConfigFlow._pick_reachable_host`
(`config_flow.py`): the stripped, case-normalised serial, its lowercase
form, and both with `.local` appended.  No explicit IP is consulted. -/
def candidates_config_flow (cic_serial : PyStr) : List PyStr :=
  let s := upper3 (pyStrip cic_serial)
  [s, pyLower s, s ++ dotLocal, pyLower s ++ dotLocal]

/-- Candidate list of `_pick_reachable_host` in `__init__.py`: the
explicitly configured IP address first (when present and truthy), then
the serial-derived candidates (when the stripped serial is non-empty). -/
def candidates_init (explicit : Option PyStr) (raw_serial : PyStr) : List PyStr :=
  let cic0 := pyStrip raw_serial
  (match explicit with
   | some e => if e.isEmpty then [] else [e]
   | none => []) ++
  (if cic0.isEmpty then []
   else
    let c := upper3 cic0
    [c, pyLower c, c ++ dotLocal, pyLower c ++ dotLocal])

/-- Candidate list exactly as the claim words it: the serial in exact
case as entered, the serial lowercased, and the two `.local` variants. -/
def candidates_claimed (serial : PyStr) : List PyStr :=
  [serial, pyLower serial, serial ++ dotLocal, pyLower serial ++ dotLocal]

/-- Order-preserving de-duplication keeping first occurrences, as the
Python comprehension `[c for c in candidates if not (c in seen or seen.add(c))]`. -/
def pyDedup (seen : List PyStr) : List PyStr → List PyStr
  | [] => []
  | c :: rest => if c ∈ seen then pyDedup seen rest else c :: pyDedup (c :: seen) rest

/-- Probing loop shared by both `_pick_reachable_host` functions: probe
the de-duplicated candidates in order, returning the first host whose
probe succeeds (`None` when the de-duplicated list is empty or no probe
succeeds).  The probe is modelled as a pure predicate on hosts. -/
def pick_reachable_host_from (probe : PyStr → Bool) (candidates : List PyStr) : Option PyStr :=
  let deduped := pyDedup [] candidates
  if deduped.isEmpty then none else deduped.find? probe

/-- `_pick_reachable_host` of `__init__.py`, from the config entry's
explicit IP (absent or possibly empty) and raw serial. -/
def pick_reachable_host_init (probe : PyStr → Bool) (explicit : Option PyStr)
    (raw_serial : PyStr) : Option PyStr :=
  pick_reachable_host_from probe (candidates_init explicit raw_serial)

/-! ## The confirmation polling loop (`ConfigFlow._poll_confirmed`) -/

/-- Observations of one iteration of the polling loop: the outcome of
the GET on `/me/installations` and the outcome of the GET on `/me`
(`none` models a raised and swallowed exception, `some (status, body)` a
response), together with the clock time `dt` the iteration's requests
consumed. -/
structure PollIter where
  instResp : Option (Nat × Json)
  meResp : Option (Nat × Json)
  dt : Nat

/-- First check of an iteration: `/me/installations` answered 200 and
the extracted installation items are truthy (non-empty). -/
def instSuccess (r : Option (Nat × Json)) : Bool :=
  match r with
  | some (200, js) => (itemsOf js).truthy
  | _ => false

/-- Second check of an iteration: `/me` answered 200 with a dict whose
`cic` field is truthy. -/
def meSuccess (r : Option (Nat × Json)) : Bool :=
  match r with
  | some (200, js) => js.isObj && (js.get "cic").truthy
  | _ => false

/-- An iteration confirms pairing when either check passes. -/
def iterSuccess (ob : PollIter) : Bool :=
  instSuccess ob.instResp || meSuccess ob.meResp

/-- The polling loop: while the clock is before the deadline, run one
iteration (environment `env` gives iteration `i`'s observations),
return `true` on success, otherwise advance the clock by the requests'
time plus the sleep interval and continue; once the deadline has
passed, return `false`.  `fuel` bounds the recursion and is chosen
large enough to never run out (the interval is positive). -/
def poll_loop (env : Nat → PollIter) (deadline interval : Nat) :
    Nat → Nat → Nat → Bool
  | 0, _, _ => false
  | fuel + 1, clock, i =>
    if clock < deadline then
      if iterSuccess (env i) then true
      else poll_loop env deadline interval fuel (clock + (env i).dt + interval) (i + 1)
    else false

/-- `_poll_confirmed(session, id_token, timeout_s=PAIR_TIMEOUT_S,
interval_s=POLL_INTERVAL_S)`, with the clock starting at 0 relative to
the computed deadline. -/
def poll_confirmed (env : Nat → PollIter) : Bool :=
  poll_loop env PAIR_TIMEOUT_S POLL_INTERVAL_S (PAIR_TIMEOUT_S + 1) 0 0

/-- Clock value at the start of iteration `k`, counting from clock
`clock` and iteration index `i`, assuming no earlier iteration
succeeded. -/
def clock_from (env : Nat → PollIter) (interval clock i : Nat) : Nat → Nat
  | 0 => clock
  | k + 1 => clock_from env interval clock i k + (env (i + k)).dt + interval

/-- Clock value at the start of iteration `k` of `poll_confirmed`. -/
def clock_at (env : Nat → PollIter) (k : Nat) : Nat :=
  clock_from env POLL_INTERVAL_S 0 0 k

/-! ## The cloud token manager (`quatt_cloud.py`) -/

/-- Token state of `QuattCloud`: `_id_token` and `_refresh_token`. -/
structure CloudTokens where
  id_token : Option String
  refresh_token : Option String

/-- Python truthiness of an optional string (`None` and `""` falsy). -/
def optTruthy : Option String → Bool
  | none => false
  | some s => s != ""

/-- Errors a cloud call can raise: the `RuntimeError` of
`_ensure_token` when no tokens are held, or an
`aiohttp.ClientResponseError` carrying the offending status. -/
inductive CloudErr where
  | noTokens : CloudErr
  | http (status : Nat) : CloudErr
deriving DecidableEq

/-- Observable outcome of the refresh POST issued by
`_refresh_id_token`: the response status, the `id_token` field of the
body (`none` when absent or null), and the `refresh_token` field
(`none` when the key is absent, in which case the old value is kept). -/
structure RefreshResp where
  status : Nat
  idToken : Option String
  refreshTok : Option (Option String)

/-- `_refresh_id_token`: raises on a non-200 response; otherwise stores
the body's `id_token` and its `refresh_token` (keeping the old refresh
token when the key is absent). -/
def refresh_id_token (st : CloudTokens) (r : RefreshResp) : Except CloudErr CloudTokens :=
  if r.status = 200 then
    .ok { id_token := r.idToken, refresh_token := r.refreshTok.getD st.refresh_token }
  else .error (.http r.status)

/-- `_ensure_token`, with the refresh responses it may consume passed
as a stream: returns immediately when an id token is held, raises
`noTokens` when neither token is held, and otherwise performs one
refresh (consuming the head of the stream; `none` when the stream is
exhausted, which no theorem relies on). -/
def ensure_token (st : CloudTokens) (rs : List RefreshResp) :
    Option (Except CloudErr (CloudTokens × List RefreshResp)) :=
  if optTruthy st.id_token then some (.ok (st, rs))
  else if optTruthy st.refresh_token = false then some (.error .noTokens)
  else
    match rs with
    | [] => none
    | r :: rest =>
      match refresh_id_token st r with
      | .error e => some (.error e)
      | .ok st2 => some (.ok (st2, rest))

/-- Outcome of a `_q_get` / `_q_post` call: a successful (accepted
status) JSON response, or a raised error. -/
inductive QOutcome where
  | json (status : Nat) : QOutcome
  | raised (e : CloudErr) : QOutcome
deriving DecidableEq

/-- Core of `_q_get` / `_q_post`, parametrised by the accepted statuses
(`[200]` for GET, `[200, 204]` for POST).  `paths` is the stream of
statuses the server answers on the request path, `rs` the stream of
refresh-endpoint responses.  On a 401 with a (truthy) refresh token
held, the token is refreshed and the whole call re-entered on the rest
of the streams; the returned `Nat` counts the requests issued to the
path.  `none` models an exhausted environment stream. -/
def q_req (oks : List Nat) : CloudTokens → List Nat → List RefreshResp →
    Option (QOutcome × Nat)
  | st, paths, rs =>
    match ensure_token st rs with
    | none => none
    | some (.error e) => some (.raised e, 0)
    | some (.ok (st1, rs1)) =>
      match paths with
      | [] => none
      | status :: prest =>
        if status = 401 ∧ optTruthy st1.refresh_token then
          match rs1 with
          | [] => none
          | r :: rrest =>
            match refresh_id_token st1 r with
            | .error e => some (.raised e, 1)
            | .ok st2 =>
              match q_req oks st2 prest rrest with
              | none => none
              | some (o, n) => some (o, n + 1)
        else if status ∈ oks then some (.json status, 1)
        else some (.raised (.http status), 1)

/-- `_q_get`: only 200 is accepted. -/
def q_get (st : CloudTokens) (paths : List Nat) (rs : List RefreshResp) :
    Option (QOutcome × Nat) :=
  q_req [200] st paths rs

/-- `_q_post`: 200 and 204 are accepted. -/
def q_post (st : CloudTokens) (paths : List Nat) (rs : List RefreshResp) :
    Option (QOutcome × Nat) :=
  q_req [200, 204] st paths rs

/-- A refresh response that succeeds with fresh truthy tokens. -/
def refreshOK : RefreshResp :=
  { status := 200, idToken := some "t", refreshTok := some (some "r") }

/-! ## The background pairing job (`ConfigFlow._pairing_background`) -/

/-- Outcome of one awaited step of the pairing job: a normal return, a
raised `aiohttp.ClientError` / `asyncio.TimeoutError`, or any other
exception (the two `except` arms of `_pairing_background`). -/
inductive StepOut (α : Type) where
  | ok (a : α) : StepOut α
  | netErr : StepOut α
  | otherErr : StepOut α

/-- Whether a step completed without raising. -/
def StepOut.isOk {α : Type} : StepOut α → Bool
  | .ok _ => true
  | _ => false

/-- Environment of one run of `_pairing_background`: the outcome of
each awaited step.  `poll_ok` is the boolean the polling loop returns
(its internal exceptions are swallowed, so it does not raise). -/
structure PairEnv where
  signup : StepOut (String × String)
  put_me : StepOut Unit
  request_pair : StepOut Unit
  poll_ok : Bool
  pick_host : StepOut (Option PyStr)

/-- Names of the steps of the pairing job, in program order. -/
inductive PairStep where
  | signup : PairStep
  | put_me : PairStep
  | request_pair : PairStep
  | poll : PairStep
  | pick_host : PairStep
deriving DecidableEq

/-- Fields of the flow mutated by `_pairing_background`, plus the list
of steps the run actually started, in order. -/
structure PairBgState where
  pre_id_token : Option String := none
  pre_refresh_token : Option String := none
  pair_error : Option String := none
  resolved_host : Option PyStr := none
  steps_run : List PairStep := []

/-- Error string stored by the `except` arms for a raising step. -/
def errString {α : Type} : StepOut α → Option String
  | .ok _ => none
  | .netErr => some "connection"
  | .otherErr => some "unknown"

/-- `_pairing_background`: anonymous signup, then `PUT /me`, then
`POST requestPair`, then the confirmation poll; on success of the poll,
`pair_error` is set to `None` and host auto-resolution is attempted.
A raise anywhere inside the `try` body jumps to the `except` arms,
which overwrite `pair_error` with `"connection"` or `"unknown"`. -/
def pairing_background (env : PairEnv) : PairBgState :=
  match env.signup with
  | .netErr => { steps_run := [.signup], pair_error := some "connection" }
  | .otherErr => { steps_run := [.signup], pair_error := some "unknown" }
  | .ok (idt, rft) =>
    match env.put_me with
    | .netErr =>
      { pre_id_token := some idt, pre_refresh_token := some rft,
        steps_run := [.signup, .put_me], pair_error := some "connection" }
    | .otherErr =>
      { pre_id_token := some idt, pre_refresh_token := some rft,
        steps_run := [.signup, .put_me], pair_error := some "unknown" }
    | .ok _ =>
      match env.request_pair with
      | .netErr =>
        { pre_id_token := some idt, pre_refresh_token := some rft,
          steps_run := [.signup, .put_me, .request_pair], pair_error := some "connection" }
      | .otherErr =>
        { pre_id_token := some idt, pre_refresh_token := some rft,
          steps_run := [.signup, .put_me, .request_pair], pair_error := some "unknown" }
      | .ok _ =>
        if env.poll_ok then
          match env.pick_host with
          | .netErr =>
            { pre_id_token := some idt, pre_refresh_token := some rft,
              steps_run := [.signup, .put_me, .request_pair, .poll, .pick_host],
              pair_error := some "connection" }
          | .otherErr =>
            { pre_id_token := some idt, pre_refresh_token := some rft,
              steps_run := [.signup, .put_me, .request_pair, .poll, .pick_host],
              pair_error := some "unknown" }
          | .ok h =>
            { pre_id_token := some idt, pre_refresh_token := some rft,
              steps_run := [.signup, .put_me, .request_pair, .poll, .pick_host],
              pair_error := none, resolved_host := h }
        else
          { pre_id_token := some idt, pre_refresh_token := some rft,
            steps_run := [.signup, .put_me, .request_pair, .poll],
            pair_error := some "pair_failed" }

/-- The canonical program order of the pairing steps. -/
def pairStepOrder : List PairStep :=
  [.signup, .put_me, .request_pair, .poll, .pick_host]

/-! ## Config-entry migration (`async_migrate_entry` in `__init__.py`) -/

/-- Outcome of the CIC hostname retrieval `_get_cic_hostname` inside
`_migrate_v1_to_v2`: `.error` when one of the three caught client
exceptions is raised, otherwise the `hostName` value from the feed
(`none` models a null hostname). -/
def HostnameResult : Type := Except Unit (Option PyStr)

/-- `_migrate_v1_to_v2`: fails (leaving the version unchanged) when the
hostname retrieval raises, when the hostname is `None`, or when it is
shorter than three characters; otherwise updates the entry to
version 2. -/
def migrate_v1_to_v2 (hres : HostnameResult) (v : Nat) : Bool × Nat :=
  match hres with
  | .error _ => (false, v)
  | .ok none => (false, v)
  | .ok (some h) => if 3 ≤ h.length then (true, 2) else (false, v)

/-- `_migrate_v2_to_v3`: always succeeds, setting version 3 (its
registry bookkeeping cannot fail). -/
def migrate_v2_to_v3 (_v : Nat) : Bool × Nat := (true, 3)

/-- `_migrate_v3_to_v4`: always succeeds, setting version 4. -/
def migrate_v3_to_v4 (_v : Nat) : Bool × Nat := (true, 4)

/-- `async_migrate_entry`: runs each per-version step when the entry's
current version matches, returning `False` as soon as a step fails, and
`True` once all applicable steps have run.  The pair carries the result
and the entry's final version. -/
def async_migrate_entry (hres : HostnameResult) (v0 : Nat) : Bool × Nat :=
  let r1 := if v0 = 1 then migrate_v1_to_v2 hres v0 else (true, v0)
  if r1.1 = false then (false, r1.2)
  else
    let r2 := if r1.2 = 2 then migrate_v2_to_v3 r1.2 else (true, r1.2)
    if r2.1 = false then (false, r2.2)
    else
      let r3 := if r2.2 = 3 then migrate_v3_to_v4 r2.2 else (true, r2.2)
      if r3.1 = false then (false, r3.2) else (true, r3.2)

/-! ## The pairing progress step (`ConfigFlow.async_step_pair`) -/

/-- The flow state `async_step_pair` reads and writes: whether
`_user_data` is set, and the current `_pair_task` (tasks are named by
numbers; `none` is Python `None`). -/
structure PairFlowState where
  user_data_present : Bool
  pair_task : Option Nat

/-- The flow result `async_step_pair` returns: delegation to the user
step, `async_show_progress_done`, or `async_show_progress` for a given
task. -/
inductive PairStepView where
  | toUser : PairStepView
  | progressDone : PairStepView
  | showProgress (task : Nat) : PairStepView
deriving DecidableEq

/-- `async_step_pair`: back to the user step when `_user_data` is
missing; `progress_done` when a task exists and is finished; otherwise
the task is created only when none exists (`new_id` names the task
`hass.async_create_task` would produce), and the progress screen is
shown for the (existing or just created) task. -/
def async_step_pair (done : Nat → Bool) (new_id : Nat) (st : PairFlowState) :
    PairFlowState × PairStepView :=
  if st.user_data_present = false then (st, .toUser)
  else
    match st.pair_task with
    | some t =>
      if done t then (st, .progressDone) else (st, .showProgress t)
    | none =>
      ({ st with pair_task := some new_id }, .showProgress new_id)

/-- A sequence of invocations of `async_step_pair` (each with its
done-oracle and the task id a creation would use), returning the final
state and the number of task creations performed. -/
def run_step_pair : PairFlowState → List ((Nat → Bool) × Nat) → PairFlowState × Nat
  | st, [] => (st, 0)
  | st, (d, i) :: rest =>
    let st2 := (async_step_pair d i st).1
    let created := if st.pair_task.isNone && st2.pair_task.isSome then 1 else 0
    let r := run_step_pair st2 rest
    (r.1, created + r.2)

/-! ## Cloud discovery (`QuattCloud.async_discover`) -/

/-- The predicate selecting an active installation:
`isinstance(x, dict) and x.get("status") == "active"`. -/
def active_pred (x : Json) : Bool :=
  x.isObj && (x.get "status").isStr "active"

/-- The installation id taken from a selected entry:
`inst.get("externalId") or inst.get("id") or inst.get("installationId")`. -/
def install_id_of (inst : Json) : Json :=
  pyOr (inst.get "externalId") (pyOr (inst.get "id") (inst.get "installationId"))

/-- `async_discover`, applied to the installation list extracted from
the 200 response of `/me/installations`: raises (`none`) when the list
is empty, otherwise selects the first active entry (falling back to the
head) and returns its installation id. -/
def discover_from_items (items : List Json) : Option Json :=
  match items with
  | [] => none
  | x :: xs =>
    let inst := ((x :: xs).find? active_pred).getD x
    some (install_id_of inst)

/-- Installation id selection exactly as the claim words it: the
`externalId` field, or the `id` field when `externalId` is absent, or
the `installationId` field when both are absent. -/
def claim_install_id (inst : Json) : Json :=
  match inst.find? "externalId" with
  | some v => v
  | none =>
    match inst.find? "id" with
    | some v => v
    | none => (inst.find? "installationId").getD .null

/-! ## Concrete inputs used by counterexamples and witnesses -/

/-- A pairing-job environment in which everything up to and including
the confirmation poll succeeds, but the host auto-resolution raises a
network error. -/
def pairEnvPickRaises : PairEnv :=
  { signup := .ok ("t", "r"), put_me := .ok (), request_pair := .ok (),
    poll_ok := true, pick_host := .netErr }

/-- An installation entry whose `externalId` is present but empty and
whose `id` is `"abc"`. -/
def instEmptyExternal : Json :=
  .obj [("externalId", .str ""), ("id", .str "abc")]

/-- An installation entry that is not active. -/
def instInactive : Json :=
  .obj [("status", .str "inactive"), ("id", .str "i1")]

/-- An active installation entry. -/
def instActive : Json :=
  .obj [("status", .str "active"), ("externalId", .str "e2")]

/-! ## Helper lemmas -/

/-- A successful `find?` splits its list at the first satisfying
element: everything before it fails the predicate. -/
theorem find?_split {α : Type} (p : α → Bool) :
    ∀ (l : List α) (a : α), l.find? p = some a →
      p a = true ∧ ∃ pre post, l = pre ++ a :: post ∧ ∀ b ∈ pre, p b = false := by
  intro l
  induction l with
  | nil => intro a h; simp [List.find?] at h
  | cons c rest ih =>
    intro a h
    by_cases hc : p c = true
    · rw [List.find?_cons_of_pos _ hc] at h
      cases h
      exact ⟨hc, [], rest, rfl, by simp⟩
    · have hc' : p c = false := by simpa using hc
      rw [List.find?_cons_of_neg _ (by simp [hc'])] at h
      obtain ⟨hpa, pre, post, heq, hpre⟩ := ih a h
      refine ⟨hpa, c :: pre, post, by simp [heq], ?_⟩
      intro b hb
      rcases List.mem_cons.mp hb with rfl | hb
      · exact hc'
      · exact hpre b hb

/-- `pyDedup` is insensitive to the order and multiplicity of the
`seen` accumulator: only its membership matters. -/
theorem pyDedup_congr : ∀ (l s1 s2 : List PyStr),
    (∀ a, a ∈ s1 ↔ a ∈ s2) → pyDedup s1 l = pyDedup s2 l := by
  intro l
  induction l with
  | nil => intro s1 s2 _; rfl
  | cons c rest ih =>
    intro s1 s2 hmem
    by_cases hc : c ∈ s1
    · have hc2 : c ∈ s2 := (hmem c).mp hc
      simp [pyDedup, hc, hc2, ih s1 s2 hmem]
    · have hc2 : c ∉ s2 := fun h => hc ((hmem c).mpr h)
      simp only [pyDedup, if_neg hc, if_neg hc2]
      rw [ih (c :: s1) (c :: s2) (by intro a; simp [hmem a])]

/-- Adding an element to the `seen` accumulator is the same as
filtering it out of the input. -/
theorem pyDedup_cons_seen : ∀ (l : List PyStr) (seen : List PyStr) (x : PyStr),
    pyDedup (x :: seen) l = pyDedup seen (l.filter (fun c => c != x)) := by
  intro l
  induction l with
  | nil => intro seen x; rfl
  | cons c rest ih =>
    intro seen x
    by_cases hcx : c = x
    · subst hcx
      simp only [pyDedup, List.mem_cons, true_or, if_true, List.filter_cons, bne_self_eq_false,
        Bool.false_eq_true, if_false]
      exact ih seen c
    · by_cases hcs : c ∈ seen
      · simp only [pyDedup, List.mem_cons, List.filter_cons]
        rw [if_pos (Or.inr hcs)]
        have : (c != x) = true := by simp [hcx]
        rw [if_pos this]
        simp only [pyDedup, if_pos hcs]
        exact ih seen x
      · have hns : c ∉ x :: seen := by simp [hcx, hcs]
        simp only [pyDedup, if_neg hns, List.filter_cons]
        have : (c != x) = true := by simp [hcx]
        rw [if_pos this]
        simp only [pyDedup, if_neg hcs]
        congr 1
        rw [pyDedup_congr rest (c :: x :: seen) (x :: c :: seen) (by intro a; simp; tauto)]
        exact ih (c :: seen) x

/-- Elements produced by `pyDedup` are not in the accumulator. -/
theorem pyDedup_not_mem_seen : ∀ (l seen : List PyStr) (a : PyStr),
    a ∈ pyDedup seen l → a ∉ seen := by
  intro l
  induction l with
  | nil => intro seen a h; simp [pyDedup] at h
  | cons c rest ih =>
    intro seen a h
    by_cases hc : c ∈ seen
    · exact ih seen a (by simpa [pyDedup, hc] using h)
    · simp only [pyDedup, if_neg hc] at h
      rcases List.mem_cons.mp h with rfl | h
      · exact hc
      · intro ha
        exact ih (c :: seen) a h (List.mem_cons_of_mem c ha)

/-- The de-duplicated list has no duplicates. -/
theorem pyDedup_nodup : ∀ (l seen : List PyStr), (pyDedup seen l).Nodup := by
  intro l
  induction l with
  | nil => intro seen; simp [pyDedup]
  | cons c rest ih =>
    intro seen
    by_cases hc : c ∈ seen
    · simpa [pyDedup, hc] using ih seen
    · simp only [pyDedup, if_neg hc]
      refine List.nodup_cons.mpr ⟨?_, ih (c :: seen)⟩
      intro hmem
      exact pyDedup_not_mem_seen rest (c :: seen) c hmem (List.mem_cons_self c seen)

/-- Membership in the de-duplicated list. -/
theorem pyDedup_mem : ∀ (l seen : List PyStr) (a : PyStr),
    a ∈ pyDedup seen l ↔ a ∈ l ∧ a ∉ seen := by
  intro l
  induction l with
  | nil => intro seen a; simp [pyDedup]
  | cons c rest ih =>
    intro seen a
    by_cases hc : c ∈ seen
    · rw [pyDedup, if_pos hc, ih]
      constructor
      · rintro ⟨h1, h2⟩; exact ⟨List.mem_cons_of_mem c h1, h2⟩
      · rintro ⟨h1, h2⟩
        rcases List.mem_cons.mp h1 with rfl | h1
        · exact absurd hc h2
        · exact ⟨h1, h2⟩
    · rw [pyDedup, if_neg hc]
      constructor
      · intro h
        rcases List.mem_cons.mp h with rfl | h
        · exact ⟨List.mem_cons_self a rest, hc⟩
        · obtain ⟨h1, h2⟩ := (ih (c :: seen) a).mp h
          exact ⟨List.mem_cons_of_mem c h1, fun ha => h2 (List.mem_cons_of_mem c ha)⟩
      · rintro ⟨h1, h2⟩
        rcases List.mem_cons.mp h1 with rfl | h1
        · exact List.mem_cons_self a _
        · by_cases hac : a = c
          · subst hac; exact List.mem_cons_self a _
          · exact List.mem_cons_of_mem c ((ih (c :: seen) a).mpr ⟨h1, by simp [hac, h2]⟩)

/-- The clock never runs backwards. -/
theorem clock_from_le (env : Nat → PollIter) (interval clock i : Nat) :
    ∀ k, clock ≤ clock_from env interval clock i k := by
  intro k
  induction k with
  | zero => exact Nat.le_refl clock
  | succ k ih =>
    calc clock ≤ clock_from env interval clock i k := ih
    _ ≤ clock_from env interval clock i k + (env (i + k)).dt + interval := by omega

/-- Unrolling the clock by one iteration from the front. -/
theorem clock_from_shift (env : Nat → PollIter) (interval clock i : Nat) :
    ∀ k, clock_from env interval clock i (k + 1) =
      clock_from env interval (clock + (env i).dt + interval) (i + 1) k := by
  intro k
  induction k with
  | zero => simp [clock_from]
  | succ k ih =>
    have hidx : i + 1 + k = i + (k + 1) := by omega
    calc clock_from env interval clock i (k + 2)
        = clock_from env interval clock i (k + 1) + (env (i + (k + 1))).dt + interval := rfl
      _ = clock_from env interval (clock + (env i).dt + interval) (i + 1) k
            + (env (i + 1 + k)).dt + interval := by rw [ih, hidx]
      _ = clock_from env interval (clock + (env i).dt + interval) (i + 1) (k + 1) := rfl

/-- Characterisation of the polling loop: with a positive interval and
enough fuel, the loop returns `true` exactly when some iteration whose
start time is before the deadline succeeds. -/
theorem poll_loop_true_iff (env : Nat → PollIter) (deadline interval : Nat)
    (hint : 1 ≤ interval) :
    ∀ fuel clock i, deadline - clock ≤ fuel →
      (poll_loop env deadline interval fuel clock i = true ↔
        ∃ k, clock_from env interval clock i k < deadline ∧
          iterSuccess (env (i + k)) = true) := by
  intro fuel
  induction fuel with
  | zero =>
    intro clock i hle
    have hdc : deadline ≤ clock := by omega
    simp only [poll_loop, Bool.false_eq_true, false_iff]
    rintro ⟨k, hk, _⟩
    have := clock_from_le env interval clock i k
    omega
  | succ fuel ih =>
    intro clock i hle
    by_cases hc : clock < deadline
    · by_cases hs : iterSuccess (env i) = true
      · simp only [poll_loop, if_pos hc, hs, if_true, true_iff]
        exact ⟨0, by simpa [clock_from] using hc, by simpa using hs⟩
      · have hs' : iterSuccess (env i) = false := by simpa using hs
        have hle2 : deadline - (clock + (env i).dt + interval) ≤ fuel := by omega
        simp only [poll_loop, if_pos hc, hs', Bool.false_eq_true, if_false]
        rw [ih (clock + (env i).dt + interval) (i + 1) hle2]
        constructor
        · rintro ⟨k, h1, h2⟩
          refine ⟨k + 1, ?_, ?_⟩
          · rw [clock_from_shift]; exact h1
          · have : i + (k + 1) = i + 1 + k := by omega
            rw [this]; exact h2
        · rintro ⟨k, h1, h2⟩
          cases k with
          | zero =>
            exfalso
            simp only [Nat.add_zero] at h2
            rw [h2] at hs'
            exact Bool.noConfusion hs'
          | succ k =>
            refine ⟨k, ?_, ?_⟩
            · rw [← clock_from_shift]; exact h1
            · have : i + 1 + k = i + (k + 1) := by omega
              rw [this]; exact h2
    · simp only [poll_loop, if_neg hc, Bool.false_eq_true, false_iff]
      rintro ⟨k, hk, _⟩
      have := clock_from_le env interval clock i k
      omega

/-- When a task is already present, `async_step_pair` leaves the flow
state unchanged. -/
theorem async_step_pair_keeps_state (d : Nat → Bool) (i : Nat) (st : PairFlowState)
    (t : Nat) (ht : st.pair_task = some t) : (async_step_pair d i st).1 = st := by
  by_cases hu : st.user_data_present = false
  · simp [async_step_pair, hu]
  · simp only [async_step_pair, hu, Bool.false_eq_true, if_false, ht]
    by_cases hd : d t = true <;> simp [hd]

/-- No invocation sequence creates a task while one is already held. -/
theorem run_step_pair_count_some (invs : List ((Nat → Bool) × Nat)) :
    ∀ (st : PairFlowState) (t : Nat), st.pair_task = some t →
      (run_step_pair st invs).2 = 0 := by
  induction invs with
  | nil => intro st t _; rfl
  | cons di rest ih =>
    intro st t ht
    obtain ⟨d, i⟩ := di
    have hkeep := async_step_pair_keeps_state d i st t ht
    simp only [run_step_pair, hkeep]
    rw [ih st t ht]
    simp [ht]

/-- `pick_reachable_host_from` is `find?` over the de-duplicated
candidates (the early empty-list return is redundant). -/
theorem pick_reachable_host_from_eq (probe : PyStr → Bool) (cands : List PyStr) :
    pick_reachable_host_from probe cands = (pyDedup [] cands).find? probe := by
  by_cases h : (pyDedup [] cands).isEmpty
  · have he : pyDedup [] cands = [] := List.isEmpty_iff.mp h
    simp [pick_reachable_host_from, he]
  · simp [pick_reachable_host_from, h]

/-! ## Claims -/

/-- C1: every pairing run's confirmation poll sleeps
`POLL_INTERVAL_S = 2` seconds between iterations against the two
endpoints, returns `True` exactly when some iteration starting before
the `PAIR_TIMEOUT_S = 120` second deadline observes a non-empty
installation list or a truthy `cic` field, and returns `False` (it
always terminates) once the deadline has elapsed without either. -/
theorem quatt_c1_poll_confirmed_deadline (env : Nat → PollIter) :
    PAIR_TIMEOUT_S = 120 ∧ POLL_INTERVAL_S = 2 ∧
    (poll_confirmed env = true ↔
      ∃ k, clock_at env k < PAIR_TIMEOUT_S ∧ iterSuccess (env k) = true) := by
  refine ⟨rfl, rfl, ?_⟩
  have h := poll_loop_true_iff env PAIR_TIMEOUT_S POLL_INTERVAL_S
      (by norm_num [POLL_INTERVAL_S]) (PAIR_TIMEOUT_S + 1) 0 0 (by norm_num)
  simpa [poll_confirmed, clock_at] using h

/-- C7: the probe against `http://{host}:8080/beta/feed/data.json` has
a 4-second total timeout, returns `True` exactly on a 200 response,
and returns `False` (instead of raising) on a client error/timeout. -/
theorem quatt_c7_probe_host :
    PROBE_TIMEOUT_S = 4 ∧
    (∀ host : String, probe_url host = "http://" ++ host ++ ":8080/beta/feed/data.json") ∧
    (∀ status : Nat, probe_host (.resp status) = true ↔ status = 200) ∧
    probe_host .netErr = false := by
  refine ⟨rfl, fun host => rfl, fun status => ?_, rfl⟩
  simp [probe_host]

/-- C6: `_ensure_token` performs no refresh when an id token is held,
refreshes from the refresh token when no id token is held, and raises
its no-tokens error exactly when neither token is available. -/
theorem quatt_c6_ensure_token_lazy (st : CloudTokens) (rs : List RefreshResp) :
    (optTruthy st.id_token = true → ensure_token st rs = some (.ok (st, rs))) ∧
    (optTruthy st.id_token = false → optTruthy st.refresh_token = false →
      ensure_token st rs = some (.error .noTokens)) ∧
    (∀ r rest, optTruthy st.id_token = false → optTruthy st.refresh_token = true →
      ensure_token st (r :: rest) =
        some ((refresh_id_token st r).map (fun st2 => (st2, rest)))) ∧
    (ensure_token st rs = some (.error .noTokens) →
      optTruthy st.id_token = false ∧ optTruthy st.refresh_token = false) := by
  refine ⟨?_, ?_, ?_, ?_⟩
  · intro h; simp [ensure_token, h]
  · intro h1 h2; simp [ensure_token, h1, h2]
  · intro r rest h1 h2
    simp only [ensure_token, h1, Bool.false_eq_true, if_false, h2, if_neg]
    cases hr : refresh_id_token st r <;> simp [Except.map, hr]
  · intro h
    by_cases h1 : optTruthy st.id_token = true
    · simp [ensure_token, h1] at h
    · have h1' : optTruthy st.id_token = false := by simpa using h1
      by_cases h2 : optTruthy st.refresh_token = true
      · exfalso
        cases rs with
        | nil => simp [ensure_token, h1', h2] at h
        | cons r rest =>
          by_cases hs : r.status = 200 <;>
            simp [ensure_token, h1', h2, refresh_id_token, hs] at h
      · exact ⟨h1', by simpa using h2⟩

/-- C5: the host prober de-duplicates its candidate list keeping first
occurrences in order, probes the remaining hosts (which are pairwise
distinct) in that order, returns the first host whose probe succeeds,
and returns no host exactly when no candidate's probe succeeds. -/
theorem quatt_c5_dedup_first_success :
    (∀ (x : PyStr) (rest : List PyStr),
      pyDedup [] (x :: rest) = x :: pyDedup [] (rest.filter (fun c => c != x))) ∧
    (∀ (probe : PyStr → Bool) (cands : List PyStr),
      pick_reachable_host_from probe cands = (pyDedup [] cands).find? probe) ∧
    (∀ cands : List PyStr, (pyDedup [] cands).Nodup) ∧
    (∀ (probe : PyStr → Bool) (cands : List PyStr),
      pick_reachable_host_from probe cands = none ↔ ∀ c ∈ cands, probe c = false) ∧
    (∀ (probe : PyStr → Bool) (cands : List PyStr) (h : PyStr),
      pick_reachable_host_from probe cands = some h →
        probe h = true ∧ h ∈ cands ∧
        ∃ pre post, pyDedup [] cands = pre ++ h :: post ∧ ∀ c ∈ pre, probe c = false) := by
  refine ⟨?_, pick_reachable_host_from_eq, fun cands => pyDedup_nodup cands [], ?_, ?_⟩
  · intro x rest
    simp only [pyDedup, List.not_mem_nil, if_neg]
    rw [pyDedup_cons_seen rest [] x]
    simp
  · intro probe cands
    rw [pick_reachable_host_from_eq]
    constructor
    · intro h c hc
      rw [List.find?_eq_none] at h
      have hmem : c ∈ pyDedup [] cands := (pyDedup_mem cands [] c).mpr ⟨hc, by simp⟩
      simpa using h c hmem
    · intro h
      refine List.find?_eq_none.mpr ?_
      intro x hx
      have := (pyDedup_mem cands [] x).mp hx
      simp [h x this.1]
  · intro probe cands h hp
    rw [pick_reachable_host_from_eq] at hp
    obtain ⟨hph, pre, post, heq, hpre⟩ := find?_split probe _ h hp
    have hmem : h ∈ pyDedup [] cands := by rw [heq]; simp
    exact ⟨hph, ((pyDedup_mem cands [] h).mp hmem).1, pre, post, heq, hpre⟩

/-- Witness for C5: on candidates `["b", "a"]` with a probe accepting
only `"a"`, the prober returns `"a"`, which follows the failing `"b"`. -/
theorem quatt_c5_dedup_first_success_witness :
    (fun c : PyStr => c == ['a']) ['a'] = true ∧ (['a'] : PyStr) ∈ [['b'], ['a']] ∧
    ∃ pre post, pyDedup [] [['b'], ['a']] = pre ++ ['a'] :: post ∧
      ∀ c ∈ pre, (fun c : PyStr => c == ['a']) c = false :=
  quatt_c5_dedup_first_success.2.2.2.2 (fun c => c == ['a']) [['b'], ['a']] ['a'] (by decide)

/-- Any invocation sequence of the pairing step creates at most one
background task. -/
theorem run_step_pair_count_le_one :
    ∀ (invs : List ((Nat → Bool) × Nat)) (st : PairFlowState),
      (run_step_pair st invs).2 ≤ 1 := by
  intro invs
  induction invs with
  | nil => intro st; simp [run_step_pair]
  | cons di rest ih =>
    intro st
    obtain ⟨d, i⟩ := di
    cases hst : st.pair_task with
    | some t =>
      have hkeep := async_step_pair_keeps_state d i st t hst
      simp only [run_step_pair, hkeep]
      rw [run_step_pair_count_some rest st t hst]
      simp [hst]
    | none =>
      by_cases hu : st.user_data_present = true
      · have hres : (async_step_pair d i st).1 = { st with pair_task := some i } := by
          simp [async_step_pair, hu, hst]
        simp only [run_step_pair, hres]
        rw [run_step_pair_count_some rest { st with pair_task := some i } i rfl]
        simp [hst]
      · have hu' : st.user_data_present = false := by simpa using hu
        have hres : (async_step_pair d i st).1 = st := by simp [async_step_pair, hu']
        simp only [run_step_pair, hres]
        simpa [hst] using ih st

/-- `_migrate_v1_to_v2` either succeeds, setting version 2, or fails,
leaving the version unchanged. -/
theorem migrate_v1_to_v2_cases (hres : HostnameResult) (v : Nat) :
    migrate_v1_to_v2 hres v = (true, 2) ∨ migrate_v1_to_v2 hres v = (false, v) := by
  rcases hres with e | h
  · right; rfl
  · cases h with
    | none => right; rfl
    | some h =>
      by_cases hl : 3 ≤ h.length
      · left; simp [migrate_v1_to_v2, hl]
      · right; simp [migrate_v1_to_v2, hl]

/-- C2 counterexample: for the serial `"cic-x"` (entered in lower
case), the first candidate built by the prober is the case-normalised
`"CIC-x"`, not the serial in exact case as entered, so the claimed
candidate list differs from the built one. -/
theorem quatt_c2_counterexample :
    candidates_config_flow "cic-x".data =
      ["CIC-x".data, "cic-x".data, "CIC-x.local".data, "cic-x.local".data] ∧
    candidates_claimed "cic-x".data =
      ["cic-x".data, "cic-x".data, "cic-x.local".data, "cic-x.local".data] ∧
    candidates_config_flow "cic-x".data ≠ candidates_claimed "cic-x".data := by
  refine ⟨by decide, by decide, by decide⟩

/-- C2 amended: both probers first normalise the serial (strip
whitespace, uppercase the first three characters when the serial has at
least three), and build the four candidates from the normalised serial;
the setup-time prober prepends the explicit IP address (when present
and non-empty) and adds the serial candidates only for a non-empty
stripped serial. -/
theorem quatt_c2_candidates (raw : PyStr) (e : PyStr) :
    candidates_config_flow raw = candidates_claimed (upper3 (pyStrip raw)) ∧
    ((pyStrip raw).isEmpty = false → e.isEmpty = false →
      candidates_init (some e) raw = e :: candidates_claimed (upper3 (pyStrip raw))) ∧
    ((pyStrip raw).isEmpty = false →
      candidates_init none raw = candidates_claimed (upper3 (pyStrip raw))) := by
  refine ⟨rfl, ?_, ?_⟩
  · intro h1 h2
    simp [candidates_init, candidates_claimed, h1, h2]
  · intro h1
    simp [candidates_init, candidates_claimed, h1]

/-- Witness for C2: a padded lower-case serial with an explicit IP. -/
theorem quatt_c2_candidates_witness :
    candidates_init (some "10.0.0.2".data) " cic-x ".data =
      "10.0.0.2".data :: candidates_claimed (upper3 (pyStrip " cic-x ".data)) :=
  (quatt_c2_candidates " cic-x ".data "10.0.0.2".data).2.1 (by decide) (by decide)

/-- C8: migration proceeds stepwise by version (1→2, 2→3, 3→4),
returns `False` as soon as a step fails (only the 1→2 step can fail,
leaving the version at 1), and for every entry starting at version 1, 2
or 3 whose applicable steps succeed, ends at version 4 with `True`. -/
theorem quatt_c8_migrate_stepwise (hres : HostnameResult) (v0 : Nat)
    (hv : v0 = 1 ∨ v0 = 2 ∨ v0 = 3) :
    ((migrate_v1_to_v2 hres 1).1 = true → async_migrate_entry hres v0 = (true, 4)) ∧
    (v0 ≠ 1 → async_migrate_entry hres v0 = (true, 4)) ∧
    (v0 = 1 → (migrate_v1_to_v2 hres 1).1 = false →
      async_migrate_entry hres v0 = (false, 1)) := by
  rcases hv with rfl | rfl | rfl
  · rcases migrate_v1_to_v2_cases hres 1 with hm | hm
    · refine ⟨fun _ => ?_, fun h => absurd rfl h, fun _ hf => ?_⟩
      · simp [async_migrate_entry, hm, migrate_v2_to_v3, migrate_v3_to_v4]
      · rw [hm] at hf; simp at hf
    · refine ⟨fun ht => ?_, fun h => absurd rfl h, fun _ _ => ?_⟩
      · rw [hm] at ht; simp at ht
      · simp [async_migrate_entry, hm]
  · exact ⟨fun _ => by simp [async_migrate_entry, migrate_v2_to_v3, migrate_v3_to_v4],
      fun _ => by simp [async_migrate_entry, migrate_v2_to_v3, migrate_v3_to_v4],
      fun h => absurd h (by norm_num)⟩
  · exact ⟨fun _ => by simp [async_migrate_entry, migrate_v2_to_v3, migrate_v3_to_v4],
      fun _ => by simp [async_migrate_entry, migrate_v2_to_v3, migrate_v3_to_v4],
      fun h => absurd h (by norm_num)⟩

/-- Witness for C8: a version-1 entry with a valid retrieved hostname
migrates to version 4. -/
theorem quatt_c8_migrate_stepwise_witness :
    async_migrate_entry (.ok (some "CIC-x".data)) 1 = (true, 4) :=
  (quatt_c8_migrate_stepwise (.ok (some "CIC-x".data)) 1 (Or.inl rfl)).1 (by decide)

/-- C9: `async_step_pair` never replaces an existing task (the state is
unchanged whenever a task is present), re-shows the progress screen for
the same unfinished task, creates a task only when none exists, and any
sequence of invocations creates at most one task. -/
theorem quatt_c9_single_pair_task :
    (∀ (d : Nat → Bool) (i : Nat) (st : PairFlowState) (t : Nat),
      st.pair_task = some t → (async_step_pair d i st).1 = st) ∧
    (∀ (d : Nat → Bool) (i : Nat) (st : PairFlowState) (t : Nat),
      st.pair_task = some t → st.user_data_present = true → d t = false →
        async_step_pair d i st = (st, .showProgress t)) ∧
    (∀ (d : Nat → Bool) (i : Nat) (st : PairFlowState),
      (async_step_pair d i st).1.pair_task ≠ st.pair_task →
        st.pair_task = none ∧ st.user_data_present = true ∧
        (async_step_pair d i st).1.pair_task = some i) ∧
    (∀ (invs : List ((Nat → Bool) × Nat)) (st : PairFlowState),
      (run_step_pair st invs).2 ≤ 1) := by
  refine ⟨async_step_pair_keeps_state, ?_, ?_, run_step_pair_count_le_one⟩
  · intro d i st t ht hu hd
    simp [async_step_pair, hu, ht, hd]
  · intro d i st hne
    cases hst : st.pair_task with
    | some t =>
      exact absurd
        (congrArg PairFlowState.pair_task (async_step_pair_keeps_state d i st t hst)) hne
    | none =>
      by_cases hu : st.user_data_present = true
      · exact ⟨rfl, hu, by simp [async_step_pair, hu, hst]⟩
      · exfalso
        have hu' : st.user_data_present = false := by simpa using hu
        have : (async_step_pair d i st).1 = st := by simp [async_step_pair, hu']
        exact hne (congrArg PairFlowState.pair_task this)

/-- Witness for C9: with user data present and an unfinished task 3,
the step re-shows progress for task 3 without touching the state. -/
theorem quatt_c9_single_pair_task_witness :
    async_step_pair (fun _ => false) 7 { user_data_present := true, pair_task := some 3 } =
      ({ user_data_present := true, pair_task := some 3 }, .showProgress 3) :=
  quatt_c9_single_pair_task.2.1 (fun _ => false) 7
    { user_data_present := true, pair_task := some 3 } 3 rfl rfl rfl

/-- C3 counterexample: with both tokens held and a server answering
401, 401, 200 (refreshes succeeding), `_q_get` issues three requests to
the path — two retries, not at most one. -/
theorem quatt_c3_counterexample :
    q_get { id_token := some "t0", refresh_token := some "r0" } [401, 401, 200]
      [refreshOK, refreshOK] = some (.json 200, 3) ∧ ¬ (3 : Nat) ≤ 2 := by
  exact ⟨by decide, by norm_num⟩

/-- One step of `q_req` on a non-401 accepted status with an id token
held: a single request, no retry. -/
theorem q_req_non401 (oks : List Nat) (st : CloudTokens) (s : Nat) (rest : List Nat)
    (rs : List RefreshResp) (h1 : optTruthy st.id_token = true) (h3 : s ≠ 401)
    (h4 : s ∈ oks) : q_req oks st (s :: rest) rs = some (.json s, 1) := by
  rw [q_req.eq_def]
  simp [ensure_token, h1, h3, h4]

/-- One step of `q_req` on a 401 with a refresh token held and a
succeeding refresh: the whole call is re-entered on fresh tokens, and
the request count incremented. -/
theorem q_req_401_refresh (oks : List Nat) (st : CloudTokens) (prest : List Nat)
    (rrest : List RefreshResp) (h1 : optTruthy st.id_token = true)
    (h2 : optTruthy st.refresh_token = true) :
    q_req oks st (401 :: prest) (refreshOK :: rrest) =
      match q_req oks { id_token := some "t", refresh_token := some "r" } prest rrest with
      | none => none
      | some (o, n) => some (o, n + 1) := by
  rw [q_req.eq_def]
  simp [ensure_token, h1, h2, refresh_id_token, refreshOK]

/-- C3 amended: on a 401 with a refresh token held, `_q_get` / `_q_post`
refresh the id token and re-enter the whole request recursively, so a
run of `k` consecutive 401 responses (with succeeding refreshes) leads
to `k + 1` requests on the path, unbounded in `k`, before the first
non-401 response is processed normally. -/
theorem quatt_c3_retry_recursive :
    (∀ st paths rs, q_get st paths rs = q_req [200] st paths rs) ∧
    (∀ st paths rs, q_post st paths rs = q_req [200, 204] st paths rs) ∧
    (∀ (oks : List Nat) (k : Nat) (s : Nat) (rest : List Nat) (st : CloudTokens),
      optTruthy st.id_token = true → optTruthy st.refresh_token = true →
      s ≠ 401 → s ∈ oks →
      q_req oks st (List.replicate k 401 ++ s :: rest) (List.replicate k refreshOK) =
        some (.json s, k + 1)) := by
  refine ⟨fun _ _ _ => rfl, fun _ _ _ => rfl, ?_⟩
  intro oks k
  induction k with
  | zero =>
    intro s rest st h1 _h2 h3 h4
    simpa using q_req_non401 oks st s rest [] h1 h3 h4
  | succ k ih =>
    intro s rest st h1 h2 h3 h4
    have hrec := ih s rest { id_token := some "t", refresh_token := some "r" }
      (by decide) (by decide) h3 h4
    simp only [List.replicate_succ, List.cons_append]
    rw [q_req_401_refresh oks st _ _ h1 h2, hrec]

/-- Witness for C3's amended statement: two consecutive 401 responses
produce three path requests. -/
theorem quatt_c3_retry_recursive_witness :
    q_req [200] { id_token := some "a", refresh_token := some "b" }
      (List.replicate 2 401 ++ 200 :: []) (List.replicate 2 refreshOK) =
      some (.json 200, 3) :=
  quatt_c3_retry_recursive.2.2 [200] 2 200 []
    { id_token := some "a", refresh_token := some "b" }
    (by decide) (by decide) (by decide) (by decide)

/-- C4 counterexample: in a run where signup, profile update, pairing
request all succeed and the polling loop reports success, but the
subsequent host auto-resolution raises a network error, the final
pairing error field is `"connection"`, not `None`. -/
theorem quatt_c4_counterexample :
    pairEnvPickRaises.poll_ok = true ∧
    (pairing_background pairEnvPickRaises).steps_run = pairStepOrder ∧
    (pairing_background pairEnvPickRaises).pair_error = some "connection" ∧
    (pairing_background pairEnvPickRaises).pair_error ≠ none := by
  refine ⟨rfl, rfl, rfl, ?_⟩
  intro h
  exact Option.noConfusion h

/-- C4 amended: the steps of the pairing job run in program order, each
reached exactly when all earlier steps completed without raising (the
host resolution additionally requires the poll to have succeeded), and
the final pairing error field is `None` exactly when the polling loop
reported success and the subsequent host resolution did not raise. -/
theorem quatt_c4_pairing_order (env : PairEnv) :
    (pairing_background env).steps_run =
      pairStepOrder.take (pairing_background env).steps_run.length ∧
    (PairStep.put_me ∈ (pairing_background env).steps_run ↔ env.signup.isOk = true) ∧
    (PairStep.request_pair ∈ (pairing_background env).steps_run ↔
      env.signup.isOk = true ∧ env.put_me.isOk = true) ∧
    (PairStep.poll ∈ (pairing_background env).steps_run ↔
      env.signup.isOk = true ∧ env.put_me.isOk = true ∧ env.request_pair.isOk = true) ∧
    (PairStep.pick_host ∈ (pairing_background env).steps_run ↔
      env.signup.isOk = true ∧ env.put_me.isOk = true ∧ env.request_pair.isOk = true ∧
      env.poll_ok = true) ∧
    ((pairing_background env).pair_error = none ↔
      env.signup.isOk = true ∧ env.put_me.isOk = true ∧ env.request_pair.isOk = true ∧
      env.poll_ok = true ∧ env.pick_host.isOk = true) := by
  obtain ⟨s, p, r, po, ph⟩ := env
  cases s <;> cases p <;> cases r <;> cases po <;> cases ph <;>
    simp [pairing_background, pairStepOrder, StepOut.isOk]

/-- C10 counterexample: on the single-entry list whose entry has
`externalId` present but empty (`""`) and `id` equal to `"abc"`, the
code selects `"abc"` (Python truthiness), while the claim (absence-based
selection) dictates the empty `externalId`. -/
theorem quatt_c10_counterexample :
    discover_from_items [instEmptyExternal] = some (.str "abc") ∧
    claim_install_id instEmptyExternal = .str "" ∧
    discover_from_items [instEmptyExternal] ≠ some (claim_install_id instEmptyExternal) := by
  refine ⟨rfl, rfl, ?_⟩
  intro h
  have h' : some (Json.str "abc") = some (Json.str "") := h
  injection h' with h1
  injection h1 with h2
  exact absurd h2 (by decide)

/-- C10 amended: `async_discover` raises exactly when the installation
list is empty; otherwise it selects the first entry satisfying
`isinstance(x, dict) and x.get("status") == "active"` (every entry
before it fails that predicate), falling back to the first entry when
none is active, and returns the first truthy of the selected entry's
`externalId`, `id`, `installationId` fields. -/
theorem quatt_c10_discover (items : List Json) :
    (discover_from_items items = none ↔ items = []) ∧
    (∀ x xs, items = x :: xs →
      discover_from_items items =
        some (install_id_of (((x :: xs).find? active_pred).getD x))) ∧
    (∀ x xs, items = x :: xs → (x :: xs).find? active_pred = none →
      (∀ j ∈ items, active_pred j = false) ∧
      discover_from_items items = some (install_id_of x)) ∧
    (∀ y, items.find? active_pred = some y →
      active_pred y = true ∧
      ∃ pre post, items = pre ++ y :: post ∧ ∀ j ∈ pre, active_pred j = false) := by
  refine ⟨?_, ?_, ?_, ?_⟩
  · cases items <;> simp [discover_from_items]
  · intro x xs h; subst h; rfl
  · intro x xs h hf; subst h
    refine ⟨fun j hj => ?_, by simp [discover_from_items, hf]⟩
    simpa using List.find?_eq_none.mp hf j hj
  · intro y hy
    exact find?_split active_pred items y hy

/-- Witness for C10: a list with an inactive first entry and an active
second entry. -/
theorem quatt_c10_discover_witness :
    discover_from_items [instInactive, instActive] =
      some (install_id_of (((instInactive :: [instActive]).find? active_pred).getD
        instInactive)) :=
  (quatt_c10_discover [instInactive, instActive]).2.1 instInactive [instActive] rfl

/-- Witness for C6: with no id token and no refresh token,
`_ensure_token` raises its no-tokens error. -/
theorem quatt_c6_ensure_token_lazy_witness :
    ensure_token { id_token := none, refresh_token := none } [] =
      some (.error .noTokens) :=
  (quatt_c6_ensure_token_lazy { id_token := none, refresh_token := none } []).2.1 rfl rfl
